import Mathlib

/-
Verification of the configuration-merge and calibration-lookup subsystem of
the dmm repository (src/dmm2bm/config.py), as a shallow embedding.

Modelling conventions:
* A parsed argparse namespace is an association list from destination names
  (option names with hyphens replaced by underscores) to values.
* Command-line tokens are structured: `Token.assign n v` embeds the string
  "--n=v", `Token.flagTok n` embeds the bare "--n", `Token.raw s` embeds a
  plain positional string.  File and process-variable I/O is abstracted:
  a successfully read config file is an `Option IniFile` (`none` models a
  file configparser.read could not open — it swallows that OSError and
  reports no files read; a file that exists but is malformed INI instead
  makes read raise, modelled separately by `config_to_list_read`), and
  `write` returns the section/key/value triples it would put in the file
  instead of performing file output.
* Numbers are rationals; Python str() of a number is abstracted by `ratStr`,
  which never returns the empty string.
-/

/-- A value held in an argparse namespace: a string, a boolean flag, or a
number (the `energy` field has type float in the schema). -/
inductive PValue where
  | str (s : String)
  | flag (b : Bool)
  | num (q : ℚ)
deriving DecidableEq, Repr

/-- A command-line token. `assign n v` stands for the single token
"--n=v", `flagTok n` for the bare token "--n", and `raw s` for a plain
(positional) string token. -/
inductive Token where
  | assign (name : String) (value : String)
  | flagTok (name : String)
  | raw (s : String)
deriving DecidableEq, Repr

/-- An argparse namespace: association list from destination name to value. -/
abbrev NS := List (String × PValue)

/-- First-match lookup in a string-keyed association list. -/
def lookupStr {α : Type} : List (String × α) → String → Option α
  | [], _ => none
  | p :: rest, k => if p.1 = k then some p.2 else lookupStr rest k

/-- Attribute lookup on a namespace (first match). -/
def NS.get (ns : NS) (k : String) : Option PValue :=
  lookupStr ns k

/-- setattr on a namespace: replace the first binding of `k`, or append. -/
def NS.set : NS → String → PValue → NS
  | [], k, v => [(k, v)]
  | (k0, v0) :: rest, k, v =>
      if k0 = k then (k, v) :: rest else (k0, v0) :: NS.set rest k v

/-- Descriptor of one schema field: its compiled-in default, whether its CLI
action is store_true, and whether it is a multi-valued option (nargs="+").
config.py lines 25-63. -/
structure FieldOpts where
  default : PValue
  store_true : Bool
  nargs_plus : Bool
deriving DecidableEq, Repr

/-- pathlib.Path.home() is environment dependent; modelled as a constant. -/
def HOME : String := "/home/user"

/-- config.py line 18. -/
def LOGS_HOME : String := HOME ++ "/logs"

/-- config.py line 19. -/
def CONFIG_FILE_NAME : String := HOME ++ "/logs/dmm.conf"

/-- SECTIONS["general"], config.py lines 25-48. -/
def general_fields : List (String × FieldOpts) :=
  [("config", ⟨PValue.str CONFIG_FILE_NAME, false, false⟩),
   ("logs-home", ⟨PValue.str LOGS_HOME, false, false⟩),
   ("verbose", ⟨PValue.flag false, true, false⟩),
   ("testing", ⟨PValue.flag false, true, false⟩),
   ("force", ⟨PValue.flag false, true, false⟩)]

/-- SECTIONS["energy"], config.py lines 50-55. -/
def energy_fields : List (String × FieldOpts) :=
  [("energy", ⟨PValue.num (-1), false, false⟩)]

/-- SECTIONS["energyioc"], config.py lines 58-63. -/
def energyioc_fields : List (String × FieldOpts) :=
  [("energyioc-prefix", ⟨PValue.str "2bm:MCTOptics:", false, false⟩)]

/-- The schema registry, config.py lines 23-63 (an ordered dict of sections). -/
def SECTIONS : List (String × List (String × FieldOpts)) :=
  [("general", general_fields),
   ("energy", energy_fields),
   ("energyioc", energyioc_fields)]

/-- config.py line 65. -/
def MONO_PARAMS : List String := ["energy", "energyioc"]

/-- config.py line 66. -/
def PINK_PARAMS : List String := ["energyioc"]

/-- config.py line 68. -/
def NICE_NAMES : List String := ["General", "DMM Energy", "Energy IOC"]

/-- argparse destination of an option name: hyphens become underscores
(Python name.replace, applied character by character). -/
def dest (s : String) : String :=
  String.mk (s.toList.map (fun c => if c = '-' then '_' else c))

/-- Look a field up in the schema by its option name. -/
def findField (n : String) : Option FieldOpts :=
  lookupStr (SECTIONS.flatMap (fun sf => sf.2)) n

/-- Value of a decimal digit list, most significant first. -/
def digitsVal (l : List Char) : Nat :=
  l.foldl (fun a c => a * 10 + (c.toNat - 48)) 0

/-- Python float() on a well-formed decimal literal (optional sign, digits,
optional fractional part).  Exponent forms and ill-formed input (on which
argparse would abort the process) are outside the modelled fragment. -/
def floatOfString (s : String) : ℚ :=
  let p : ℚ × List Char :=
    match s.toList with
    | c :: rest => if c = '-' then (-1, rest) else (1, s.toList)
    | [] => (1, [])
  let ip := p.2.takeWhile Char.isDigit
  let rest := p.2.dropWhile Char.isDigit
  match rest with
  | c :: frac =>
      if c = '.' then
        let fp := frac.takeWhile Char.isDigit
        p.1 * ((digitsVal ip : ℚ) + (digitsVal fp : ℚ) / ((10 : ℚ) ^ fp.length))
      else p.1 * (digitsVal ip : ℚ)
  | [] => p.1 * (digitsVal ip : ℚ)

/-- The argparse type converter of a field applied to a token's value string:
the `energy` field has type float, every other valued field has type str. -/
def typedValue (n : String) (v : String) : PValue :=
  if n = "energy" then PValue.num (floatOfString v) else PValue.str v

/-- The namespace argparse produces when no token mentions a field: every
schema field bound to its compiled-in default (config.py lines 147-151,
`get_defaults`, and the defaults applied by `parse_known_args`). -/
def defaultsNS : NS :=
  (SECTIONS.flatMap (fun sf => sf.2)).map (fun p => (dest p.1, p.2.default))

/-- A parsed INI file: sections, each an association list of key/value
strings (configparser view). -/
abbrev IniFile := List (String × List (String × String))

/-- configparser get: first matching section, first matching option. -/
def ini_get (cfg : IniFile) (s k : String) : Option String :=
  match lookupStr cfg s with
  | none => none
  | some sec => lookupStr sec k

/-- The tokens config.py lines 114-129 emit for one schema field: nothing if
the file has no such option or the stored value is "" or "None"; the bare
flag token when the action is store_true and the value is "True"; for a
multi-valued field the flag token followed by the comma-split parts; else a
single "--name=value" token. -/
def field_chunk (cfg : IniFile) (s : String) (p : String × FieldOpts) : List Token :=
  match ini_get cfg s p.1 with
  | none => []
  | some v =>
      if v ≠ "" ∧ v ≠ "None" then
        if p.2.store_true then
          (if v = "True" then [Token.flagTok p.1] else [])
        else
          if p.2.nargs_plus then
            Token.flagTok p.1 :: (v.splitOn ",").map (fun w => Token.raw w.trim)
          else [Token.assign p.1 v]
      else []

/-- The schema flattened to (section, (name, opts)) in declaration order;
the iteration order of the nested loops of config.py lines 113-114. -/
def all_fields : List (String × (String × FieldOpts)) :=
  SECTIONS.flatMap (fun sf => sf.2.map (fun p => (sf.1, p)))

/-- config_to_list, config.py lines 101-131, on a config file that read
could open and parse (or not open at all).  `none` models a missing or
unopenable config file: configparser.read swallows that OSError and
returns no read files, so line 110 returns [].  A file that exists but is
not parseable INI makes configparser.read raise instead; that propagating
error path is modelled by `config_to_list_read` below. -/
def config_to_list (file : Option IniFile) : List Token :=
  match file with
  | none => []
  | some cfg => all_fields.flatMap (fun q => field_chunk cfg q.1 q.2)

/-- One argparse step on a token.  An option that is not in the schema is
left for the unrecognized list of parse_known_args (no binding changes);
tokens are otherwise processed left to right, later bindings overwriting
earlier ones. -/
def applyToken (ns : NS) : Token → NS
  | Token.assign n v =>
      match findField n with
      | some o => if o.store_true then ns else NS.set ns (dest n) (typedValue n v)
      | none => ns
  | Token.flagTok n =>
      match findField n with
      | some o => if o.store_true then NS.set ns (dest n) (PValue.flag true) else ns
      | none => ns
  | Token.raw _ => ns

/-- argparse parsing of a token list starting from namespace `ns`. -/
def parseTokens (ns : NS) (ts : List Token) : NS :=
  ts.foldl applyToken ns

/-- The binding a single token writes (independently of the namespace). -/
def writeOf (t : Token) (f : String) : Option PValue :=
  match t with
  | Token.assign n v =>
      match findField n with
      | some o =>
          if o.store_true then none
          else if f = dest n then some (typedValue n v) else none
      | none => none
  | Token.flagTok n =>
      match findField n with
      | some o =>
          if o.store_true then
            (if f = dest n then some (PValue.flag true) else none)
          else none
      | none => none
  | Token.raw _ => none

/-- A token in the well-behaved fragment of argparse this file models: a
"--name=value" token for a valued option, a bare "--name" token for a flag,
or a positional string; tokens for options outside the schema go to the
unrecognized list either way. -/
def WfToken : Token → Bool
  | Token.assign n _ =>
      match findField n with
      | some o => !o.store_true
      | none => true
  | Token.flagTok n =>
      match findField n with
      | some o => o.store_true
      | none => true
  | Token.raw _ => true

/-- get_config_name, config.py lines 71-83, over the raw string argv.
`none` models the IndexError raised when "--config" is the final token or
the text after "--config" is empty. -/
def get_config_name (argv : List String) : Option String :=
  match argv with
  | [] => some CONFIG_FILE_NAME
  | a :: rest =>
      if a.startsWith "--config" then
        if a = "--config" then rest.head?
        else
          let n := ((a.splitOn "--config").drop 1).headD ""
          if n = "" then none
          else some (if n.startsWith "=" then n.drop 1 else n)
      else get_config_name rest

/-- parse_known_args, config.py lines 85-99, for a parser carrying the full
schema.  `argv` is the whole process argument vector (program name first);
`file` is the parsed content of the config file named by get_config_name.
When more than one argument is present the parsed token sequence is
subparser token ++ config-file tokens ++ literal command-line tokens, and
otherwise the empty sequence "" is parsed. -/
def parse_known_args (subparser : Bool) (argv : List Token) (file : Option IniFile) : NS :=
  if argv.length > 1 then
    parseTokens defaultsNS
      ((if subparser then (argv.drop 1).take 1 else [])
        ++ config_to_list file ++ argv.drop 1)
  else parseTokens defaultsNS []

/-- Python str() of a rational; numeric rendering is abstracted (the claims
only depend on it never being the empty string). -/
def ratStr (q : ℚ) : String :=
  if q.den = 1 then toString q.num
  else toString q.num ++ "/" ++ toString q.den

/-- Python str() of a namespace value, as used by write (config.py line 174).
Defaults in this schema are never Python None, so the None guard of line 169
never fires. -/
def strOfPValue : PValue → String
  | PValue.str s => s
  | PValue.flag b => if b then "True" else "False"
  | PValue.num q => ratStr q

/-- The value write puts in the file for one field (config.py lines 163-169):
the value from `args` when args and sections are given, the section is
selected and the namespace has the attribute; the compiled-in default
otherwise.  In this schema no namespace value is a Python list, so the
comma-join branch of lines 165-167 is not exercised. -/
def effective_value (args : Option NS) (sections : Option (List String))
    (sec name : String) (o : FieldOpts) : String :=
  match args, sections with
  | some a, some secs =>
      if sec ∈ secs then
        match NS.get a (dest name) with
        | some pv => strOfPValue pv
        | none => strOfPValue o.default
      else strOfPValue o.default
  | _, _ => strOfPValue o.default

/-- write, config.py lines 153-177, abstracted from file I/O: the returned
triples (section, key, value) are exactly the entries config.set receives,
in order.  A field whose effective value is the empty string keeps its entry
but its key is prefixed with "# " (line 171); the config field is skipped
(line 173). -/
def write (config_file : String) (args : Option NS)
    (sections : Option (List String)) : List (String × String × String) :=
  SECTIONS.flatMap (fun sf =>
    sf.2.filterMap (fun p =>
      if p.1 = "config" then none
      else
        let v := effective_value args sections sf.1 p.1 p.2
        some (sf.1, ((if v = "" then "# " else "") ++ p.1, v))))

/-- Severity of a log line. -/
inductive LogLevel where
  | info
  | warning
deriving DecidableEq, Repr

/-- One emitted log line. -/
structure LogLine where
  level : LogLevel
  text : String
deriving DecidableEq, Repr

/-- Inverse of dest as used by log_values line 189: underscores back to
hyphens. -/
def undest (s : String) : String :=
  String.mk (s.toList.map (fun c => if c = '_' then '-' else c))

/-- Insertion into a string list sorted ascending. -/
def insertStr (x : String) : List String → List String
  | [] => [x]
  | y :: ys => if x < y then x :: y :: ys else y :: insertStr x ys

/-- Python sorted() on strings. -/
def sortStr (l : List String) : List String :=
  l.foldr insertStr []

/-- The severity rule of config.py lines 196-202 for one entry: warning for
the string "none" and for boolean False, info otherwise.  The fixed-width
column format of the source is abstracted to a single space.  Python None
values (rendered "-") cannot arise from this schema. -/
def entry_line (k : String) (v : PValue) : LogLine :=
  if v = PValue.str "none" then ⟨LogLevel.warning, k ++ " " ++ strOfPValue v⟩
  else if v ≠ PValue.flag false then ⟨LogLevel.info, k ++ " " ++ strOfPValue v⟩
  else ⟨LogLevel.warning, k ++ " " ++ strOfPValue v⟩

/-- log_values, config.py lines 179-204, with explicit state passing: the
result is the list of emitted log lines together with the namespace after
the call.  The source only reads args.__dict__, so the state component is
returned as received. -/
def log_values (args : NS) : List LogLine × NS :=
  let body := (SECTIONS.zip NICE_NAMES).flatMap (fun sn =>
    let entries := sortStr (((args.map (fun p => p.1)).filter
      (fun k => (sn.1.2.map (fun p => p.1)).contains (undest k))))
    if entries = [] then []
    else (⟨LogLevel.info, sn.2⟩ : LogLine) ::
      entries.filterMap (fun k => (NS.get args k).map (entry_line k)))
  (⟨LogLevel.warning, "energy status start"⟩ ::
    (body ++ [⟨LogLevel.warning, "energy status end"⟩]), args)

/-- One motor-position record of the calibration table (the JSON schema of
spec section 3). -/
structure MotorRecord where
  mirror_angle : ℚ
  mirror_vertical_position : ℚ
  dmm_usy_ob : ℚ
  dmm_usy_ib : ℚ
  dmm_dsy : ℚ
  dmm_us_arm : ℚ
  dmm_ds_arm : ℚ
  dmm_m2y : ℚ
  dmm_usx : ℚ
  dmm_dsx : ℚ
  filter : ℚ
  table_y : ℚ
  flag : ℚ
deriving DecidableEq, Repr

/-- The parameter namespace as seen by set_default_config: the mode and
requested energy plus the motor-position attributes, each `Option` so that
an attribute not yet assigned is `none`. -/
structure DmmParams where
  mode : String
  energy_value : ℚ
  mirror_angle : Option ℚ
  mirror_vertical_position : Option ℚ
  dmm_usy_ob : Option ℚ
  dmm_usy_ib : Option ℚ
  dmm_dsy : Option ℚ
  dmm_us_arm : Option ℚ
  dmm_ds_arm : Option ℚ
  dmm_m2y : Option ℚ
  dmm_usx : Option ℚ
  dmm_dsx : Option ℚ
  filter : Option ℚ
  table_y : Option ℚ
  flag : Option ℚ
deriving DecidableEq, Repr

/-- Modelled from the spec: dmm2bm.util.find_nearest (dmm2bm/util.py is not
part of src/).  Spec 4.5: select the single nearest value to the request by
absolute difference, ties broken toward the value encountered first; `none`
on an empty list (a zero-energy table is fatal). -/
def find_nearest : List ℚ → ℚ → Option ℚ
  | [], _ => none
  | e :: rest, x =>
      match find_nearest rest x with
      | none => some e
      | some b => if |b - x| < |e - x| then some b else some e

/-- Lookup of one calibrated energy in a mode's table (the JSON object is an
association list from calibrated energy to motor record, in file order). -/
def tbl_get : List (ℚ × MotorRecord) → ℚ → Option MotorRecord
  | [], _ => none
  | p :: rest, e => if p.1 = e then some p.2 else tbl_get rest e

/-- The body of set_default_config after the table is loaded, config.py
lines 248-277: find the nearest calibrated energy, overwrite energy_value
with it, assign the ten always-set motor fields from the table record, and
assign dmm_us_arm, dmm_ds_arm and dmm_m2y only when the mode is "Mono".
`none` models the fatal cases (empty energy list, missing key). -/
def set_default_config_core (table : List (ℚ × MotorRecord))
    (params : DmmParams) : Option DmmParams :=
  match find_nearest (table.map Prod.fst) params.energy_value with
  | none => none
  | some ec =>
      match tbl_get table ec with
      | none => none
      | some r =>
          some { params with
            energy_value := ec,
            mirror_angle := some r.mirror_angle,
            mirror_vertical_position := some r.mirror_vertical_position,
            dmm_usy_ob := some r.dmm_usy_ob,
            dmm_usy_ib := some r.dmm_usy_ib,
            dmm_dsy := some r.dmm_dsy,
            dmm_us_arm :=
              if params.mode = "Mono" then some r.dmm_us_arm else params.dmm_us_arm,
            dmm_ds_arm :=
              if params.mode = "Mono" then some r.dmm_ds_arm else params.dmm_ds_arm,
            dmm_m2y :=
              if params.mode = "Mono" then some r.dmm_m2y else params.dmm_m2y,
            dmm_usx := some r.dmm_usx,
            dmm_dsx := some r.dmm_dsx,
            filter := some r.filter,
            table_y := some r.table_y,
            flag := some r.flag }

/-- The names bound at module level in dmm2bm/config.py: the imports of
lines 1-16 and the module-level assignments and definitions.  The name
`json` is not among them. -/
def config_module_names : List String :=
  ["os", "sys", "shutil", "pathlib", "argparse", "configparser", "np", "Path",
   "OrderedDict", "datetime", "log", "util", "epics", "__version__",
   "LOGS_HOME", "CONFIG_FILE_NAME", "data_path", "SECTIONS", "MONO_PARAMS",
   "PINK_PARAMS", "NICE_NAMES", "get_config_name", "parse_known_args",
   "config_to_list", "Params", "write", "log_values",
   "save_params_to_config", "save_current_positions_to_config",
   "set_default_config"]

/-- A raised Python exception; parsingError stands for configparser's
MissingSectionHeaderError / ParsingError family. -/
inductive PyErr where
  | nameError (n : String)
  | keyError
  | valueError
  | parsingError
deriving DecidableEq, Repr

/-- set_default_config, config.py lines 243-277.  Line 247 evaluates
`json.load(json_file)`, which first resolves the name `json` against the
module's bindings; an unbound name raises NameError before the table is
read.  `lookup` models the content of data/dmm.json as a map from mode to
that mode's table. -/
def set_default_config (lookup : String → Option (List (ℚ × MotorRecord)))
    (params : DmmParams) : Except PyErr DmmParams :=
  if "json" ∈ config_module_names then
    match lookup params.mode with
    | none => Except.error PyErr.keyError
    | some tbl =>
        match set_default_config_core tbl params with
        | some p => Except.ok p
        | none => Except.error PyErr.valueError
  else Except.error (PyErr.nameError "json")

/-- A motor record used by concrete witnesses. -/
def sampleRec : MotorRecord := ⟨0, 1, 2, 3, 4, 5, 6, 7, 8, 9, 10, 11, 12⟩

/-- A pink-beam parameter set used by concrete witnesses. -/
def samplePink : DmmParams :=
  ⟨"Pink", 5, none, none, none, none, none, none, none,
   none, none, none, none, none, none⟩

/-- Outcome of opening and reading the config file: the file may be missing
or unopenable (an OSError configparser.read swallows), present but not
parseable as INI (configparser.read raises), or parsed successfully. -/
inductive IniReadResult where
  | missing
  | malformed
  | parsed (cfg : IniFile)

/-- config_to_list with the error behaviour of the configparser.read call
at config.py line 110 made explicit: read swallows the OSError of a
missing or unopenable file and reports no files read, so config_to_list
returns []; but a file that exists and is not parseable INI makes read
raise MissingSectionHeaderError / ParsingError, and the exception
propagates out of config_to_list uncaught. -/
def config_to_list_read : IniReadResult → Except PyErr (List Token)
  | IniReadResult.missing => Except.ok (config_to_list none)
  | IniReadResult.malformed => Except.error PyErr.parsingError
  | IniReadResult.parsed cfg => Except.ok (config_to_list (some cfg))

/-- Whether a token is an option token for the field named `n` (a raw value
token names no field). -/
def mentions (t : Token) (n : String) : Bool :=
  match t with
  | Token.assign m _ => m == n
  | Token.flagTok m => m == n
  | Token.raw _ => false

theorem NS.get_nil (k : String) : NS.get [] k = none := rfl

theorem NS.get_set (ns : NS) (k : String) (v : PValue) (f : String) :
    NS.get (NS.set ns k v) f = if f = k then some v else NS.get ns f := by
  induction ns with
  | nil =>
      by_cases h : f = k
      · subst h; simp [NS.set, NS.get, lookupStr]
      · simp [NS.set, NS.get, lookupStr, h, Ne.symm h]
  | cons hd tl ih =>
      obtain ⟨k0, v0⟩ := hd
      by_cases h0 : k0 = k
      · subst h0
        by_cases h : f = k0
        · subst h; simp [NS.set, NS.get, lookupStr]
        · simp [NS.set, NS.get, lookupStr, h, Ne.symm h]
      · by_cases h2 : k0 = f
        · subst h2
          simp [NS.set, NS.get, lookupStr, h0, Ne.symm h0]
        · simp only [NS.set, NS.get, lookupStr, h0, h2, if_neg, if_false] at ih ⊢
          exact ih

theorem get_applyToken (ns : NS) (t : Token) (f : String) :
    NS.get (applyToken ns t) f =
      match writeOf t f with
      | some v => some v
      | none => NS.get ns f := by
  cases t with
  | assign n v =>
      simp only [applyToken, writeOf]
      cases findField n with
      | none => simp
      | some o =>
          cases ho : o.store_true
          · simp only [ho, Bool.false_eq_true, if_false]
            rw [NS.get_set]
            by_cases h : f = dest n <;> simp [h]
          · simp [ho]
  | flagTok n =>
      simp only [applyToken, writeOf]
      cases findField n with
      | none => simp
      | some o =>
          cases ho : o.store_true
          · simp [ho]
          · simp only [ho, if_true]
            rw [NS.get_set]
            by_cases h : f = dest n <;> simp [h]
  | raw s => simp [applyToken, writeOf]

theorem parseTokens_nil (ns : NS) : parseTokens ns [] = ns := rfl

theorem parseTokens_cons (ns : NS) (t : Token) (ts : List Token) :
    parseTokens ns (t :: ts) = parseTokens (applyToken ns t) ts := rfl

theorem parseTokens_append (ns : NS) (l1 l2 : List Token) :
    parseTokens ns (l1 ++ l2) = parseTokens (parseTokens ns l1) l2 := by
  simp [parseTokens, List.foldl_append]

theorem get_parse (ts : List Token) (ns : NS) (f : String) :
    NS.get (parseTokens ns ts) f =
      match NS.get (parseTokens [] ts) f with
      | some v => some v
      | none => NS.get ns f := by
  induction ts generalizing ns with
  | nil => simp [parseTokens_nil, NS.get, lookupStr]
  | cons t ts ih =>
      rw [parseTokens_cons, parseTokens_cons, ih (applyToken ns t),
        ih (applyToken [] t), get_applyToken, get_applyToken]
      cases NS.get (parseTokens [] ts) f with
      | some v => simp
      | none =>
          cases writeOf t f with
          | some v => simp
          | none => simp [NS.get, lookupStr]

theorem parse_none_of (ts : List Token) (f : String)
    (h : ∀ t ∈ ts, writeOf t f = none) :
    NS.get (parseTokens [] ts) f = none := by
  induction ts with
  | nil => simp [parseTokens_nil, NS.get, lookupStr]
  | cons t ts ih =>
      rw [parseTokens_cons, get_parse, ih (fun u hu => h u (List.mem_cons_of_mem t hu)),
        get_applyToken, h t (List.mem_cons_self t ts)]
      simp [NS.get, lookupStr]

theorem parse_skip_left (l1 l2 : List Token) (ns : NS) (f : String)
    (h1 : NS.get (parseTokens [] l1) f = none) :
    NS.get (parseTokens ns (l1 ++ l2)) f = NS.get (parseTokens ns l2) f := by
  rw [parseTokens_append, get_parse l2 (parseTokens ns l1), get_parse l2 ns]
  cases NS.get (parseTokens [] l2) f with
  | some v => simp
  | none => simp [get_parse l1 ns, h1]

theorem parse_skip_right (l1 l2 : List Token) (ns : NS) (f : String)
    (h2 : NS.get (parseTokens [] l2) f = none) :
    NS.get (parseTokens ns (l1 ++ l2)) f = NS.get (parseTokens ns l1) f := by
  rw [parseTokens_append, get_parse l2 (parseTokens ns l1), h2]

theorem writeOf_raw (s f : String) : writeOf (Token.raw s) f = none := rfl

theorem writeOf_assign_ne (n v f : String) (h : f ≠ dest n) :
    writeOf (Token.assign n v) f = none := by
  simp only [writeOf]
  cases findField n with
  | none => rfl
  | some o => cases o.store_true <;> simp [h]

theorem writeOf_flagTok_ne (n f : String) (h : f ≠ dest n) :
    writeOf (Token.flagTok n) f = none := by
  simp only [writeOf]
  cases findField n with
  | none => rfl
  | some o => cases o.store_true <;> simp [h]

theorem chunk_writes_ne (cfg : IniFile) (s : String) (p : String × FieldOpts)
    (f : String) (h : f ≠ dest p.1) :
    ∀ t ∈ field_chunk cfg s p, writeOf t f = none := by
  intro t ht
  simp only [field_chunk] at ht
  cases hig : ini_get cfg s p.1 with
  | none => rw [hig] at ht; simp at ht
  | some v =>
      rw [hig] at ht
      simp only at ht
      by_cases hv : v ≠ "" ∧ v ≠ "None"
      · rw [if_pos hv] at ht
        cases hst : p.2.store_true
        · rw [if_neg (by simp [hst])] at ht
          cases hnp : p.2.nargs_plus
          · rw [if_neg (by simp [hnp])] at ht
            simp at ht
            subst ht
            exact writeOf_assign_ne p.1 v f h
          · rw [if_pos (by simp [hnp])] at ht
            rcases List.mem_cons.mp ht with h1 | h1
            · subst h1; exact writeOf_flagTok_ne p.1 f h
            · obtain ⟨w, _, rfl⟩ := List.mem_map.mp h1
              exact writeOf_raw _ f
        · rw [if_pos (by simp [hst])] at ht
          by_cases hT : v = "True"
          · rw [if_pos hT] at ht
            simp at ht
            subst ht
            exact writeOf_flagTok_ne p.1 f h
          · rw [if_neg hT] at ht
            simp at ht
      · rw [if_neg hv] at ht
        simp at ht

theorem chunks_parse_none (cfg : IniFile)
    (L : List (String × (String × FieldOpts))) (f : String)
    (h : ∀ q ∈ L, f ≠ dest q.2.1) :
    NS.get (parseTokens [] (L.flatMap (fun q => field_chunk cfg q.1 q.2))) f = none := by
  apply parse_none_of
  intro t ht
  obtain ⟨q, hq, htq⟩ := List.mem_flatMap.mp ht
  exact chunk_writes_ne cfg q.1 q.2 f (h q hq) t htq

theorem get_parse_config_target (cfg : IniFile)
    (pre post : List (String × (String × FieldOpts)))
    (s n : String) (o : FieldOpts) (ns : NS) (f : String)
    (hall : all_fields = pre ++ (s, (n, o)) :: post)
    (hpre : ∀ q ∈ pre, f ≠ dest q.2.1)
    (hpost : ∀ q ∈ post, f ≠ dest q.2.1) :
    NS.get (parseTokens ns (config_to_list (some cfg))) f =
      NS.get (parseTokens ns (field_chunk cfg s (n, o))) f := by
  simp only [config_to_list, hall]
  rw [List.flatMap_append, List.flatMap_cons,
    parse_skip_left _ _ ns f (chunks_parse_none cfg pre f hpre),
    ← parse_skip_right (field_chunk cfg s (n, o))
        (post.flatMap (fun q => field_chunk cfg q.1 q.2)) ns f
        (chunks_parse_none cfg post f hpost)]

theorem get_parse_cons_split (b : Token) (rest : List Token) (f : String) :
    NS.get (parseTokens [] (b :: rest)) f =
      match NS.get (parseTokens [] rest) f with
      | some v => some v
      | none => writeOf b f := by
  rw [parseTokens_cons, get_parse rest (applyToken [] b) f, get_applyToken]
  cases NS.get (parseTokens [] rest) f <;>
    cases hw : writeOf b f <;> simp [NS.get, lookupStr, hw]

/-- C2: for every field, when the process argument vector has length greater
than one, the merged token sequence parsed by parse_known_args places the
config-file tokens before the literal command-line tokens, so a binding
coming from a literal command-line token wins over one derived from the
config file, which in turn wins over the compiled-in default. -/
theorem parse_known_args_precedence (subparser : Bool) (argv : List Token)
    (file : Option IniFile) (f : String)
    (h : argv.length > 1)
    (hwf : ∀ t ∈ argv.drop 1, WfToken t = true) :
    NS.get (parse_known_args subparser argv file) f =
      match NS.get (parseTokens [] (argv.drop 1)) f with
      | some v => some v
      | none =>
          match NS.get (parseTokens [] (config_to_list file)) f with
          | some v => some v
          | none => NS.get defaultsNS f := by
  rcases argv with _ | ⟨a, _ | ⟨b, rest⟩⟩
  · norm_num [List.length] at h
  · norm_num [List.length] at h
  · clear hwf
    simp only [parse_known_args, if_pos h, List.drop_succ_cons, List.drop_zero,
      List.take_succ_cons, List.take_zero]
    cases hc : NS.get (parseTokens [] (b :: rest)) f with
    | some v =>
        rw [parseTokens_append, get_parse (b :: rest) _ f, hc]
    | none =>
        rw [parseTokens_append, get_parse (b :: rest) _ f, hc]
        simp only
        rw [parseTokens_append]
        cases hcf : NS.get (parseTokens [] (config_to_list file)) f with
        | some v =>
            rw [get_parse (config_to_list file) _ f, hcf]
        | none =>
            rw [get_parse (config_to_list file) _ f, hcf]
            simp only
            rw [get_parse_cons_split] at hc
            cases hr : NS.get (parseTokens [] rest) f with
            | some v => rw [hr] at hc; simp at hc
            | none =>
                rw [hr] at hc
                simp only at hc
                cases subparser
                · simp [parseTokens_nil]
                · simp only [if_true]
                  rw [parseTokens_cons, parseTokens_nil, get_applyToken, hc]

theorem get_parse_single (ns : NS) (t : Token) (f : String) :
    NS.get (parseTokens ns [t]) f =
      match writeOf t f with
      | some v => some v
      | none => NS.get ns f := by
  rw [parseTokens_cons, parseTokens_nil, get_applyToken]

theorem roundtrip_field (cfg : IniFile)
    (pre post : List (String × (String × FieldOpts)))
    (sec name : String) (o : FieldOpts) (v : String)
    (hall : all_fields = pre ++ (sec, (name, o)) :: post)
    (hpre : ∀ q ∈ pre, dest name ≠ dest q.2.1)
    (hpost : ∀ q ∈ post, dest name ≠ dest q.2.1)
    (hv : ini_get cfg sec name = some v)
    (hff : findField name = some o)
    (hnp : o.nargs_plus = false)
    (hdef : NS.get defaultsNS (dest name) = some o.default)
    (hfd : o.store_true = true → o.default = PValue.flag false) :
    (¬ (v = "" ∨ v = "None") →
      NS.get (parseTokens defaultsNS (config_to_list (some cfg))) (dest name) =
        some (if o.store_true then PValue.flag (v == "True") else typedValue name v)) ∧
    ((v = "" ∨ v = "None") →
      NS.get (parseTokens defaultsNS (config_to_list (some cfg))) (dest name) =
        NS.get defaultsNS (dest name)) := by
  have htarget := get_parse_config_target cfg pre post sec name o defaultsNS
    (dest name) hall hpre hpost
  constructor
  · intro hne
    have hcond : v ≠ "" ∧ v ≠ "None" :=
      ⟨fun hh => hne (Or.inl hh), fun hh => hne (Or.inr hh)⟩
    rw [htarget]
    simp only [field_chunk]
    rw [hv]
    simp only
    rw [if_pos hcond]
    cases hst : o.store_true
    · rw [if_neg (by simp [hst]), if_neg (by simp [hnp]), get_parse_single]
      simp only [writeOf, hff, hst, Bool.false_eq_true, if_false, if_pos rfl]
      simp
    · rw [if_pos (by simp [hst])]
      by_cases hT : v = "True"
      · rw [if_pos hT, get_parse_single]
        simp only [writeOf, hff, hst, if_true, if_pos rfl]
        simp [hst, hT]
      · rw [if_neg hT, parseTokens_nil, hdef, hfd hst]
        have hbT : (v == "True") = false := by
          cases hb : v == "True"
          · rfl
          · exact absurd (eq_of_beq hb) hT
        simp [hst, hbT]
  · intro hsome
    rw [htarget]
    simp only [field_chunk]
    rw [hv]
    simp only
    rw [if_neg (by
      rcases hsome with hh | hh <;> subst hh <;> simp)]
    rw [parseTokens_nil]

/-- C4: parsing the token sequence produced by config_to_list as if it were
a literal command-line argument list yields, for every schema field stored
in the config file, exactly the typed value stored there (the field's type
converter applied to the stored string, presence of the bare flag token for
a flag stored "True"); fields stored as the empty string or the literal
string "None" are omitted from the tokens and fall back to the other
layers (here: the compiled-in defaults). -/
theorem config_to_list_roundtrip (cfg : IniFile) (sec : String)
    (fields : List (String × FieldOpts)) (name : String) (o : FieldOpts)
    (hs : (sec, fields) ∈ SECTIONS) (hfm : (name, o) ∈ fields)
    (v : String) (hv : ini_get cfg sec name = some v)
    (hflag : o.store_true = true → v = "True" ∨ v = "False") :
    (¬ (v = "" ∨ v = "None") →
      NS.get (parseTokens defaultsNS (config_to_list (some cfg))) (dest name) =
        some (if o.store_true then PValue.flag (v == "True") else typedValue name v)) ∧
    ((v = "" ∨ v = "None") →
      NS.get (parseTokens defaultsNS (config_to_list (some cfg))) (dest name) =
        NS.get defaultsNS (dest name)) := by
  clear hflag
  simp only [SECTIONS, List.mem_cons, List.not_mem_nil, or_false, Prod.mk.injEq] at hs
  rcases hs with ⟨rfl, rfl⟩ | ⟨rfl, rfl⟩ | ⟨rfl, rfl⟩
  · simp only [general_fields, List.mem_cons, List.not_mem_nil, or_false,
      Prod.mk.injEq] at hfm
    rcases hfm with ⟨rfl, rfl⟩ | ⟨rfl, rfl⟩ | ⟨rfl, rfl⟩ | ⟨rfl, rfl⟩ | ⟨rfl, rfl⟩
    · exact roundtrip_field cfg (all_fields.take 0) (all_fields.drop 1)
        "general" "config" _ v (by decide) (by decide) (by decide) hv
        (by decide) (by decide) (by decide) (by decide)
    · exact roundtrip_field cfg (all_fields.take 1) (all_fields.drop 2)
        "general" "logs-home" _ v (by decide) (by decide) (by decide) hv
        (by decide) (by decide) (by decide) (by decide)
    · exact roundtrip_field cfg (all_fields.take 2) (all_fields.drop 3)
        "general" "verbose" _ v (by decide) (by decide) (by decide) hv
        (by decide) (by decide) (by decide) (by decide)
    · exact roundtrip_field cfg (all_fields.take 3) (all_fields.drop 4)
        "general" "testing" _ v (by decide) (by decide) (by decide) hv
        (by decide) (by decide) (by decide) (by decide)
    · exact roundtrip_field cfg (all_fields.take 4) (all_fields.drop 5)
        "general" "force" _ v (by decide) (by decide) (by decide) hv
        (by decide) (by decide) (by decide) (by decide)
  · simp only [energy_fields, List.mem_cons, List.not_mem_nil, or_false,
      Prod.mk.injEq] at hfm
    rcases hfm with ⟨rfl, rfl⟩
    exact roundtrip_field cfg (all_fields.take 5) (all_fields.drop 6)
      "energy" "energy" _ v (by decide) (by decide) (by decide) hv
      (by decide) (by decide) (by decide) (by decide)
  · simp only [energyioc_fields, List.mem_cons, List.not_mem_nil, or_false,
      Prod.mk.injEq] at hfm
    rcases hfm with ⟨rfl, rfl⟩
    exact roundtrip_field cfg (all_fields.take 6) (all_fields.drop 7)
      "energyioc" "energyioc-prefix" _ v (by decide) (by decide) (by decide) hv
      (by decide) (by decide) (by decide) (by decide)

/-- Witness for C4: a config file storing energy = "5" round-trips to the
typed value of "5". -/
theorem config_to_list_roundtrip_witness :
    (¬ (("5" : String) = "" ∨ ("5" : String) = "None") →
      NS.get (parseTokens defaultsNS
          (config_to_list (some [("energy", [("energy", "5")])]))) (dest "energy") =
        some (if (⟨PValue.num (-1), false, false⟩ : FieldOpts).store_true
          then PValue.flag (("5" : String) == "True")
          else typedValue "energy" "5")) ∧
    ((("5" : String) = "" ∨ ("5" : String) = "None") →
      NS.get (parseTokens defaultsNS
          (config_to_list (some [("energy", [("energy", "5")])]))) (dest "energy") =
        NS.get defaultsNS (dest "energy")) :=
  config_to_list_roundtrip [("energy", [("energy", "5")])] "energy" energy_fields
    "energy" ⟨PValue.num (-1), false, false⟩ (by decide) (by decide) "5"
    (by decide) (by decide)

theorem chunk_mentions_ne (cfg : IniFile) (s : String) (p : String × FieldOpts)
    (n : String) (h : p.1 ≠ n) :
    ∀ t ∈ field_chunk cfg s p, mentions t n = false := by
  intro t ht
  have hb : (p.1 == n) = false := by
    cases hbe : p.1 == n
    · rfl
    · exact absurd (eq_of_beq hbe) h
  simp only [field_chunk] at ht
  cases hig : ini_get cfg s p.1 with
  | none => rw [hig] at ht; simp at ht
  | some v =>
      rw [hig] at ht
      simp only at ht
      by_cases hv : v ≠ "" ∧ v ≠ "None"
      · rw [if_pos hv] at ht
        cases hst : p.2.store_true
        · rw [if_neg (by simp [hst])] at ht
          cases hnp : p.2.nargs_plus
          · rw [if_neg (by simp [hnp])] at ht
            simp at ht
            subst ht
            simp [mentions, hb]
          · rw [if_pos (by simp [hnp])] at ht
            rcases List.mem_cons.mp ht with h1 | h1
            · subst h1; simp [mentions, hb]
            · obtain ⟨w, _, rfl⟩ := List.mem_map.mp h1
              simp [mentions]
        · rw [if_pos (by simp [hst])] at ht
          by_cases hT : v = "True"
          · rw [if_pos hT] at ht
            simp at ht
            subst ht
            simp [mentions, hb]
          · rw [if_neg hT] at ht
            simp at ht
      · rw [if_neg hv] at ht
        simp at ht

theorem filter_chunks_nil (cfg : IniFile)
    (L : List (String × (String × FieldOpts))) (n : String)
    (h : ∀ q ∈ L, q.2.1 ≠ n) :
    (L.flatMap (fun q => field_chunk cfg q.1 q.2)).filter (fun t => mentions t n) = [] := by
  rw [List.filter_eq_nil_iff]
  intro t ht
  obtain ⟨q, hq, htq⟩ := List.mem_flatMap.mp ht
  simp [chunk_mentions_ne cfg q.1 q.2 n (h q hq) t htq]

theorem flag_emission_field (cfg : IniFile)
    (pre post : List (String × (String × FieldOpts)))
    (sec name : String) (o : FieldOpts) (v : String)
    (hall : all_fields = pre ++ (sec, (name, o)) :: post)
    (hpre : ∀ q ∈ pre, q.2.1 ≠ name)
    (hpost : ∀ q ∈ post, q.2.1 ≠ name)
    (hst : o.store_true = true)
    (hv : ini_get cfg sec name = some v) :
    (config_to_list (some cfg)).filter (fun t => mentions t name) =
      if v = "True" then [Token.flagTok name] else [] := by
  simp only [config_to_list, hall, List.flatMap_append, List.flatMap_cons,
    List.filter_append]
  rw [filter_chunks_nil cfg pre name hpre, filter_chunks_nil cfg post name hpost]
  simp only [List.nil_append, List.append_nil]
  simp only [field_chunk]
  rw [hv]
  simp only
  by_cases hT : v = "True"
  · subst hT
    rw [if_pos (by exact ⟨by decide, by decide⟩), if_pos (by simp [hst]), if_pos rfl]
    simp [mentions]
  · by_cases hv2 : v ≠ "" ∧ v ≠ "None"
    · rw [if_pos hv2, if_pos (by simp [hst]), if_neg hT]
      simp [hT]
    · rw [if_neg hv2]
      simp [hT]

/-- C6: for every schema field whose CLI action is store_true and that is
present in the config file, config_to_list emits exactly one token for the
field, the bare flag token, when the stored value is the string "True", and
emits no token for that field for any other stored value. -/
theorem config_to_list_flag_tokens (cfg : IniFile) (sec : String)
    (fields : List (String × FieldOpts)) (name : String) (o : FieldOpts)
    (hs : (sec, fields) ∈ SECTIONS) (hfm : (name, o) ∈ fields)
    (hst : o.store_true = true)
    (v : String) (hv : ini_get cfg sec name = some v) :
    (config_to_list (some cfg)).filter (fun t => mentions t name) =
      if v = "True" then [Token.flagTok name] else [] := by
  simp only [SECTIONS, List.mem_cons, List.not_mem_nil, or_false, Prod.mk.injEq] at hs
  rcases hs with ⟨rfl, rfl⟩ | ⟨rfl, rfl⟩ | ⟨rfl, rfl⟩
  · simp only [general_fields, List.mem_cons, List.not_mem_nil, or_false,
      Prod.mk.injEq] at hfm
    rcases hfm with ⟨rfl, rfl⟩ | ⟨rfl, rfl⟩ | ⟨rfl, rfl⟩ | ⟨rfl, rfl⟩ | ⟨rfl, rfl⟩
    · exact absurd hst (by decide)
    · exact absurd hst (by decide)
    · exact flag_emission_field cfg (all_fields.take 2) (all_fields.drop 3)
        "general" "verbose" ⟨PValue.flag false, true, false⟩ v
        (by decide) (by decide) (by decide) (by decide) hv
    · exact flag_emission_field cfg (all_fields.take 3) (all_fields.drop 4)
        "general" "testing" ⟨PValue.flag false, true, false⟩ v
        (by decide) (by decide) (by decide) (by decide) hv
    · exact flag_emission_field cfg (all_fields.take 4) (all_fields.drop 5)
        "general" "force" ⟨PValue.flag false, true, false⟩ v
        (by decide) (by decide) (by decide) (by decide) hv
  · simp only [energy_fields, List.mem_cons, List.not_mem_nil, or_false,
      Prod.mk.injEq] at hfm
    rcases hfm with ⟨rfl, rfl⟩
    exact absurd hst (by decide)
  · simp only [energyioc_fields, List.mem_cons, List.not_mem_nil, or_false,
      Prod.mk.injEq] at hfm
    rcases hfm with ⟨rfl, rfl⟩
    exact absurd hst (by decide)

/-- Witness for C6: a config file storing verbose = "True" makes
config_to_list emit exactly the bare flag token for verbose. -/
theorem config_to_list_flag_tokens_witness :
    (config_to_list (some [("general", [("verbose", "True")])])).filter
        (fun t => mentions t "verbose") =
      if ("True" : String) = "True" then [Token.flagTok "verbose"] else [] :=
  config_to_list_flag_tokens [("general", [("verbose", "True")])] "general"
    general_fields "verbose" ⟨PValue.flag false, true, false⟩
    (by decide) (by decide) (by decide) "True" (by decide)

/-- Witness for C2: with a config file setting energy = "7" and the literal
command line setting --energy=5, the command-line value wins. -/
theorem parse_known_args_precedence_witness :
    NS.get (parse_known_args false [Token.raw "dmm", Token.assign "energy" "5"]
        (some [("energy", [("energy", "7")])])) "energy" =
      match NS.get (parseTokens []
          (([Token.raw "dmm", Token.assign "energy" "5"] : List Token).drop 1)) "energy" with
      | some v => some v
      | none =>
          match NS.get (parseTokens []
              (config_to_list (some [("energy", [("energy", "7")])]))) "energy" with
          | some v => some v
          | none => NS.get defaultsNS "energy" :=
  parse_known_args_precedence false [Token.raw "dmm", Token.assign "energy" "5"]
    (some [("energy", [("energy", "7")])]) "energy" (by decide) (by decide)

/-- C3 counterexample: at a config file that exists but cannot be parsed
as INI, config_to_list raises (configparser.read's parsing error
propagates out of it) and does not return the empty token sequence,
refuting the cannot-be-parsed half of the claim. -/
theorem config_to_list_unparseable_raises :
    config_to_list_read IniReadResult.malformed ≠
        Except.ok ([] : List Token) ∧
      config_to_list_read IniReadResult.malformed =
        Except.error PyErr.parsingError := by
  constructor
  · intro h
    exact Except.noConfusion h
  · rfl

/-- C3 (amended): when the config file does not exist, config_to_list
returns the empty token sequence rather than raising (configparser.read
swallows the OSError and reports no files read, so line 110 returns []);
but when the file exists and cannot be parsed as INI, configparser.read
raises and the parsing error propagates out of config_to_list. -/
theorem config_to_list_missing_vs_malformed :
    config_to_list_read IniReadResult.missing = Except.ok [] ∧
      config_to_list_read IniReadResult.malformed =
        Except.error PyErr.parsingError :=
  ⟨rfl, rfl⟩

/-- C7 counterexample: invoked with a single-element argument vector, the
resolution result is not the fully-empty parameter set the claim describes:
it is the compiled-in defaults (the namespace is nonempty and, for example,
binds energy to its default -1), even though the config-file tokens are
indeed ignored (a file setting energy = "99" has no effect). -/
theorem parse_known_args_no_args_not_empty :
    parse_known_args false [Token.raw "dmm"]
        (some [("energy", [("energy", "99")])]) ≠ ([] : NS) ∧
      NS.get (parse_known_args false [Token.raw "dmm"]
        (some [("energy", [("energy", "99")])])) "energy" =
          some (PValue.num (-1)) := by
  constructor
  · decide
  · decide

/-- C7 as amended: when the process argument vector has length at most one,
parse_known_args short-circuits to the empty token sequence: the config
file is never consulted (the result does not depend on it) and parsing the
empty sequence yields the namespace holding every schema field's
compiled-in default — not an empty parameter set. -/
theorem parse_known_args_no_args (subparser : Bool) (argv : List Token)
    (file : Option IniFile) (h : ¬ argv.length > 1) :
    parse_known_args subparser argv file = defaultsNS := by
  rw [parse_known_args, if_neg h, parseTokens_nil]

/-- Witness for the amended C7 at a concrete one-element argument vector. -/
theorem parse_known_args_no_args_witness :
    parse_known_args true [Token.raw "dmm"]
        (some [("energy", [("energy", "99")])]) = defaultsNS :=
  parse_known_args_no_args true [Token.raw "dmm"]
    (some [("energy", [("energy", "99")])]) (by decide)

/-- C5: the module never imports the name json, so every call to
set_default_config raises NameError when line 247 evaluates json.load,
before any calibration data is read; the lookup can never return normally
as written. -/
theorem set_default_config_raises_name_error :
    "json" ∉ config_module_names ∧
      ∀ (lookup : String → Option (List (ℚ × MotorRecord))) (params : DmmParams),
        set_default_config lookup params = Except.error (PyErr.nameError "json") := by
  constructor
  · decide
  · intro lookup params
    rw [set_default_config, if_neg (by decide)]

theorem find_nearest_mem (l : List ℚ) (x e : ℚ)
    (h : find_nearest l x = some e) : e ∈ l := by
  induction l with
  | nil => simp [find_nearest] at h
  | cons a t ih =>
      rw [find_nearest] at h
      cases hf : find_nearest t x with
      | none =>
          rw [hf] at h
          simp at h
          subst h
          exact List.mem_cons_self a t
      | some b =>
          rw [hf] at h
          simp only at h
          by_cases hlt : |b - x| < |a - x|
          · rw [if_pos hlt] at h
            simp at h
            subst h
            exact List.mem_cons_of_mem a (ih hf)
          · rw [if_neg hlt] at h
            simp at h
            subst h
            exact List.mem_cons_self a t

theorem find_nearest_isSome (l : List ℚ) (x : ℚ) (h : l ≠ []) :
    ∃ e, find_nearest l x = some e := by
  cases l with
  | nil => exact absurd rfl h
  | cons a t =>
      rw [find_nearest]
      cases find_nearest t x with
      | none => exact ⟨a, rfl⟩
      | some b =>
          simp only
          by_cases hlt : |b - x| < |a - x|
          · exact ⟨b, if_pos hlt⟩
          · exact ⟨a, if_neg hlt⟩

theorem tbl_get_of_mem (table : List (ℚ × MotorRecord)) (e : ℚ)
    (h : e ∈ table.map Prod.fst) : ∃ r, tbl_get table e = some r := by
  induction table with
  | nil => simp at h
  | cons p t ih =>
      rw [List.map_cons, List.mem_cons] at h
      by_cases hp : p.1 = e
      · exact ⟨p.2, by rw [tbl_get, if_pos hp]⟩
      · rcases h with h | h
        · exact absurd h.symm hp
        · obtain ⟨r, hr⟩ := ih h
          exact ⟨r, by rw [tbl_get, if_neg hp]; exact hr⟩

/-- C1: for every mode, requested energy and (nonempty) calibration table,
the calibration lookup body assigns energy_value and the ten always-set
fields mirror_angle, mirror_vertical_position, dmm_usy_ob, dmm_usy_ib,
dmm_dsy, dmm_usx, dmm_dsx, filter, table_y and flag from the table record,
and assigns dmm_us_arm, dmm_ds_arm and dmm_m2y exactly when the mode equals
"Mono"; for any other mode (in particular "Pink") those three fields are
left untouched. -/
theorem set_default_config_core_assigns (table : List (ℚ × MotorRecord))
    (params : DmmParams) (h : table ≠ []) :
    ∃ (p : DmmParams) (r : MotorRecord),
      set_default_config_core table params = some p ∧
      p.mirror_angle = some r.mirror_angle ∧
      p.mirror_vertical_position = some r.mirror_vertical_position ∧
      p.dmm_usy_ob = some r.dmm_usy_ob ∧
      p.dmm_usy_ib = some r.dmm_usy_ib ∧
      p.dmm_dsy = some r.dmm_dsy ∧
      p.dmm_usx = some r.dmm_usx ∧
      p.dmm_dsx = some r.dmm_dsx ∧
      p.filter = some r.filter ∧
      p.table_y = some r.table_y ∧
      p.flag = some r.flag ∧
      (params.mode = "Mono" →
        p.dmm_us_arm = some r.dmm_us_arm ∧
        p.dmm_ds_arm = some r.dmm_ds_arm ∧
        p.dmm_m2y = some r.dmm_m2y) ∧
      (params.mode ≠ "Mono" →
        p.dmm_us_arm = params.dmm_us_arm ∧
        p.dmm_ds_arm = params.dmm_ds_arm ∧
        p.dmm_m2y = params.dmm_m2y) := by
  have hne : table.map Prod.fst ≠ [] := by
    intro hm
    exact h (List.map_eq_nil_iff.mp hm)
  obtain ⟨ec, hec⟩ := find_nearest_isSome (table.map Prod.fst) params.energy_value hne
  obtain ⟨r, hr⟩ := tbl_get_of_mem table ec
    (find_nearest_mem (table.map Prod.fst) params.energy_value ec hec)
  refine ⟨{ params with
      energy_value := ec,
      mirror_angle := some r.mirror_angle,
      mirror_vertical_position := some r.mirror_vertical_position,
      dmm_usy_ob := some r.dmm_usy_ob,
      dmm_usy_ib := some r.dmm_usy_ib,
      dmm_dsy := some r.dmm_dsy,
      dmm_us_arm :=
        if params.mode = "Mono" then some r.dmm_us_arm else params.dmm_us_arm,
      dmm_ds_arm :=
        if params.mode = "Mono" then some r.dmm_ds_arm else params.dmm_ds_arm,
      dmm_m2y :=
        if params.mode = "Mono" then some r.dmm_m2y else params.dmm_m2y,
      dmm_usx := some r.dmm_usx,
      dmm_dsx := some r.dmm_dsx,
      filter := some r.filter,
      table_y := some r.table_y,
      flag := some r.flag }, r, ?_, ?_⟩
  · simp only [set_default_config_core, hec, hr]
  · refine ⟨rfl, rfl, rfl, rfl, rfl, rfl, rfl, rfl, rfl, rfl, ?_, ?_⟩
    · intro hm
      exact ⟨by simp [hm], by simp [hm], by simp [hm]⟩
    · intro hm
      exact ⟨by simp [if_neg hm], by simp [if_neg hm], by simp [if_neg hm]⟩

/-- Witness for C1 at a concrete one-row table and a Pink-mode parameter
set: the lookup succeeds, the ten fields are assigned, and the three
Mono-only fields are untouched. -/
theorem set_default_config_core_assigns_witness :
    ∃ (p : DmmParams) (r : MotorRecord),
      set_default_config_core [((20 : ℚ), sampleRec)] samplePink = some p ∧
      p.mirror_angle = some r.mirror_angle ∧
      p.mirror_vertical_position = some r.mirror_vertical_position ∧
      p.dmm_usy_ob = some r.dmm_usy_ob ∧
      p.dmm_usy_ib = some r.dmm_usy_ib ∧
      p.dmm_dsy = some r.dmm_dsy ∧
      p.dmm_usx = some r.dmm_usx ∧
      p.dmm_dsx = some r.dmm_dsx ∧
      p.filter = some r.filter ∧
      p.table_y = some r.table_y ∧
      p.flag = some r.flag ∧
      (samplePink.mode = "Mono" →
        p.dmm_us_arm = some r.dmm_us_arm ∧
        p.dmm_ds_arm = some r.dmm_ds_arm ∧
        p.dmm_m2y = some r.dmm_m2y) ∧
      (samplePink.mode ≠ "Mono" →
        p.dmm_us_arm = samplePink.dmm_us_arm ∧
        p.dmm_ds_arm = samplePink.dmm_ds_arm ∧
        p.dmm_m2y = samplePink.dmm_m2y) :=
  set_default_config_core_assigns [((20 : ℚ), sampleRec)] samplePink (by decide)

/-- C8: write emits an entry for every schema field of every section except
the config field; when the effective value is the empty string the entry is
still present but its key carries the "# " comment marker. -/
theorem write_emits_every_field (config_file : String) (args : Option NS)
    (sections : Option (List String)) (sec : String)
    (fields : List (String × FieldOpts)) (name : String) (o : FieldOpts)
    (hs : (sec, fields) ∈ SECTIONS) (hfm : (name, o) ∈ fields)
    (hnc : name ≠ "config") :
    (sec, ((if effective_value args sections sec name o = "" then "# " else "")
        ++ name,
      effective_value args sections sec name o)) ∈ write config_file args sections := by
  rw [write]
  refine List.mem_flatMap.mpr ⟨(sec, fields), hs, ?_⟩
  refine List.mem_filterMap.mpr ⟨(name, o), hfm, ?_⟩
  rw [if_neg hnc]

/-- Witness for C8: with no args and no selected sections, the verbose field
of the general section is emitted. -/
theorem write_emits_every_field_witness :
    ("general",
      ((if effective_value none none "general" "verbose"
            ⟨PValue.flag false, true, false⟩ = "" then "# " else "") ++ "verbose",
        effective_value none none "general" "verbose"
          ⟨PValue.flag false, true, false⟩)) ∈ write CONFIG_FILE_NAME none none :=
  write_emits_every_field CONFIG_FILE_NAME none none "general" general_fields
    "verbose" ⟨PValue.flag false, true, false⟩ (by decide) (by decide) (by decide)

/-- C9: no entry write produces has the key config (commented or not),
regardless of the args, the selected sections and the resolved value of the
config field. -/
theorem write_never_writes_config (config_file : String) (args : Option NS)
    (sections : Option (List String)) (sec key v : String)
    (h : (sec, (key, v)) ∈ write config_file args sections) :
    key ≠ "config" ∧ key ≠ "# config" := by
  rw [write] at h
  obtain ⟨sf, hsf, hmem⟩ := List.mem_flatMap.mp h
  obtain ⟨p, hp, hsome⟩ := List.mem_filterMap.mp hmem
  by_cases hc : p.1 = "config"
  · rw [if_pos hc] at hsome
    exact absurd hsome (by simp)
  · rw [if_neg hc] at hsome
    simp only [Option.some.injEq, Prod.mk.injEq] at hsome
    obtain ⟨hsec, hkey, hval⟩ := hsome
    subst hkey
    clear h hmem hval hsec
    simp only [SECTIONS, List.mem_cons, List.not_mem_nil, or_false] at hsf
    rcases hsf with rfl | rfl | rfl
    · simp only [general_fields, List.mem_cons, List.not_mem_nil, or_false] at hp
      rcases hp with rfl | rfl | rfl | rfl | rfl
      · exact absurd rfl hc
      · constructor <;> split <;> decide
      · constructor <;> split <;> decide
      · constructor <;> split <;> decide
      · constructor <;> split <;> decide
    · simp only [energy_fields, List.mem_cons, List.not_mem_nil, or_false] at hp
      rcases hp with rfl
      constructor <;> split <;> decide
    · simp only [energyioc_fields, List.mem_cons, List.not_mem_nil, or_false] at hp
      rcases hp with rfl
      constructor <;> split <;> decide

/-- Witness for C9 at a concrete entry of the produced file. -/
theorem write_never_writes_config_witness :
    ("logs-home" : String) ≠ "config" ∧ ("logs-home" : String) ≠ "# config" :=
  write_never_writes_config CONFIG_FILE_NAME none none "general" "logs-home"
    LOGS_HOME (by decide)

/-- C10: log_values only reads the namespace: the state it returns is the
namespace it received, unchanged in every field, and its only output is the
list of log lines. -/
theorem log_values_no_mutation (args : NS) : (log_values args).2 = args := rfl
